import Mathlib

/-!
# Verification of the SuperMCP-CLI crawl engine (`src/scraper.js`)

A shallow embedding of the `DocumentationScraper` class.  Network I/O, URL
parsing, HTML/XML parsing and HTML→Markdown conversion are external
collaborators (axios, the WHATWG `URL` class, cheerio, turndown); they are
modelled by a deterministic oracle environment `Env`.  Everything the scraper
itself computes — option defaulting, the frontier loop, batching, the visited
set, link filtering, sitemap candidate probing, word counting — is translated
directly from the JavaScript source.

JavaScript strings are modelled as Lean `String`; the handful of string
primitives the source uses (`startsWith`, `includes`, `trim`,
`split('#')[0]`, `split('/')`, `split(/\s+/)`) are defined below over
`String.data` so that every definition is executable.
-/

namespace SuperMCP

/-- The whitespace class used by the source's `split(/\s+/)` word counter.
(JS `\s` also matches `\f`, `\v` and some Unicode spaces; the characters
below are the ones that occur in Markdown output.) -/
def isJsWs (c : Char) : Bool :=
  c == ' ' || c == '\t' || c == '\n' || c == '\r'

/-- `isPre p s` : does list `p` occur as a prefix of `s`?  (JS `startsWith`.) -/
def isPre : List Char → List Char → Bool
  | [], _ => true
  | _ :: _, [] => false
  | a :: as, b :: bs => a == b && isPre as bs

/-- JS `s.startsWith(p)`. -/
def strStartsWith (s p : String) : Bool := isPre p.data s.data

/-- `hasSub pat s` : does `pat` occur as a contiguous substring of `s`?
(JS `s.includes(pat)`.) -/
def hasSub (pat : List Char) : List Char → Bool
  | [] => pat.isEmpty
  | c :: t => if isPre pat (c :: t) then true else hasSub pat t

/-- JS `s.includes(pat)`. -/
def containsSub (s pat : String) : Bool := hasSub pat.data s.data

/-- JS `s.trim()` (restricted to the ASCII whitespace of `isJsWs`). -/
def jsTrim (s : String) : String :=
  ⟨((s.data.dropWhile isJsWs).reverse.dropWhile isJsWs).reverse⟩

/-- JS `s.split('#')[0]`: the part of the string before the first `#`. -/
def stripHash (s : String) : String := ⟨s.data.takeWhile (fun c => c != '#')⟩

/-- JS `a || b` on strings (`""` is falsy). -/
def jsOrStr (a b : String) : String := if a.data.isEmpty then b else a

/-- JS `v || d` on the numeric options of the constructor: an absent
(`undefined`) or zero value is falsy and selects the default. -/
def jsOrNat (v : Option Nat) (d : Nat) : Nat :=
  match v with
  | none => d
  | some n => if n = 0 then d else n

mutual
/-- JS `s.split(/\s+/)` starting inside a field whose (reversed) prefix is
`acc`: a run of whitespace terminates the current field. -/
def jsSplitWsAux : List Char → List Char → List (List Char)
  | [], acc => [acc.reverse]
  | c :: cs, acc =>
    if isJsWs c then acc.reverse :: jsSplitWsSkip cs
    else jsSplitWsAux cs (c :: acc)

/-- JS `s.split(/\s+/)` while inside a (maximal) whitespace run: further
whitespace is absorbed into the same separator. -/
def jsSplitWsSkip : List Char → List (List Char)
  | [] => [[]]
  | c :: cs => if isJsWs c then jsSplitWsSkip cs else jsSplitWsAux cs [c]
end

/-- JS `s.split(/\s+/)` — the fields of `s` under maximal whitespace runs as
separators.  `""` splits to `[""]`; leading (resp. trailing) whitespace
contributes a leading (resp. trailing) empty field, exactly as in JS. -/
def jsSplitWs (s : String) : List String :=
  (jsSplitWsAux s.data []).map (fun l => ⟨l⟩)

/-- The number of whitespace-delimited tokens (maximal nonempty runs of
non-whitespace characters) in a character list; `prevWs` records whether the
previous character was whitespace (or the start of the string). -/
def countTokensAux : List Char → Bool → Nat
  | [], _ => 0
  | c :: cs, prevWs =>
    if isJsWs c then countTokensAux cs true
    else (if prevWs then 1 else 0) + countTokensAux cs false

/-- The number of whitespace-delimited tokens in a string. -/
def countTokens (s : String) : Nat := countTokensAux s.data true

/-- The first character (if any) is not whitespace. -/
def headOk : List Char → Bool
  | [] => true
  | c :: _ => !isJsWs c

/-- The last character (if any) is not whitespace. -/
def lastOk : List Char → Bool
  | [] => true
  | [c] => !isJsWs c
  | _ :: c :: cs => lastOk (c :: cs)

/-! ## Data model and oracle environment -/

/-- The pieces of `new URL(u)` the scraper reads: `origin` and `pathname`. -/
structure UrlParts where
  origin : String
  pathname : String
deriving DecidableEq, Repr

/-- What one successfully fetched and parsed HTML page yields once the
external collaborators (axios, cheerio, turndown) have run, as consumed by
`scrapePage`: the text of the first `<h1>`, the text of `<title>`, the
Markdown conversion of the selected content region, and the `href`
attributes of the page's anchors in document order (anchors with a missing
`href` attribute are omitted; an empty `href` is kept, matching the falsy
check in the source). -/
structure PageData where
  h1 : String
  docTitle : String
  markdown : String
  hrefs : List String
deriving DecidableEq, Repr

/-- The deterministic oracle environment standing for the external world:

* `parseUrl u`: `new URL(u)` — `none` models a thrown `TypeError`;
* `fetchPage u`: `axios.get(u)` followed by the cheerio/turndown pipeline —
  `none` models any transport error, timeout or non-2xx status;
* `fetchSitemap u`: `axios.get(u)` of a sitemap candidate followed by the
  XML parse — on success the raw text of the `<loc>` elements under `<url>`
  and under `<sitemap>`, in document order; `none` models a fetch failure;
* `resolveRel href base`: `new URL(href, base).href` for the
  relative-reference branch of `resolveUrl` — `none` models a throw.

The oracle is a function, so a URL fetched twice yields the same answer. -/
structure Env where
  parseUrl : String → Option UrlParts
  fetchPage : String → Option PageData
  fetchSitemap : String → Option (List String × List String)
  resolveRel : String → String → Option String

/-- The constructor's `options` object; `none` is an absent property. -/
structure ScrapeOptions where
  maxPages : Option Nat := none
  timeout : Option Nat := none
  concurrency : Option Nat := none
  authHeader : Option String := none
  cookies : Option String := none

/-- The configuration fields the constructor stores on the instance. -/
structure Config where
  maxPages : Nat
  timeout : Nat
  concurrency : Nat
  authHeader : Option String
  cookies : Option String
deriving DecidableEq, Repr

/-- `new DocumentationScraper(options)` (scraper.js:13-22): each numeric
option is defaulted through JS `||`, so falsy (absent or zero) values get
the defaults 200 / 5000 / 5. -/
def mkConfig (options : ScrapeOptions) : Config where
  maxPages := jsOrNat options.maxPages 200
  timeout := jsOrNat options.timeout 5000
  concurrency := jsOrNat options.concurrency 5
  authHeader := options.authHeader
  cookies := options.cookies

/-- One collected page (scraper.js:183-189).  The `scrapedAt` wall-clock
timestamp is not modelled. -/
structure Page where
  url : String
  title : String
  content : String
  wordCount : Nat
deriving DecidableEq, Repr, Inhabited

/-- The object returned by `scrape` (scraper.js:108-113 and 129-134), minus
the unmodelled `scrapedAt` timestamp. -/
structure ScrapeResult where
  pageCount : Nat
  pages : List Page
  baseUrl : String
deriving DecidableEq, Repr, Inhabited

/-- The mutable frontier state `this.visited` / `this.queue` / `this.pages`.
`visited` is modelled as the list of dispatched URLs, most recent first. -/
structure CrawlState where
  visited : List String
  queue : List String
  pages : List Page
deriving DecidableEq, Repr

/-! ## Link filtering and resolution -/

/-- The fixed denylist of `shouldFollow` (scraper.js:226-236). -/
def excludePatterns : List String :=
  ["/blog/", "/changelog/", ".pdf", ".zip", ".tar.gz",
   "/downloads/", "/login", "/signup", "/api-reference/"]

/-- `shouldFollow(url, baseUrl, basePath)` (scraper.js:222-243).  `url` may
be `null` (the failure value of `resolveUrl`), modelled as `none`; a null or
empty URL is falsy and rejected.  `basePath` is accepted but unused, as in
the source. -/
def shouldFollow (visited : List String) (url : Option String)
    (baseUrl : String) (basePath : String) : Bool :=
  match url with
  | none => false
  | some u =>
    if u.data.isEmpty then false
    else if !strStartsWith u baseUrl then false
    else if u ∈ visited then false
    else excludePatterns.all (fun pat => !containsSub u pat)

/-- `getBasePath` applied to an already-parsed pathname:
`path.split('/').slice(0, -1).join('/')` (scraper.js:247-248). -/
def basePathOfPath (path : String) : String :=
  ⟨joinSlash ((path.data.splitOn '/').dropLast)⟩
where
  /-- `Array.prototype.join('/')`. -/
  joinSlash : List (List Char) → List Char
    | [] => []
    | [x] => x
    | x :: y :: ys => x ++ '/' :: joinSlash (y :: ys)

/-- `getBasePath(url)` (scraper.js:245-252): parse failure is caught and
yields `''`. -/
def getBasePath (env : Env) (url : String) : String :=
  match env.parseUrl url with
  | none => ""
  | some parts => basePathOfPath parts.pathname

/-- `resolveUrl(href, baseUrl, basePath)` (scraper.js:208-220): absolute
`http...` hrefs are fragment-stripped and used as-is; root-relative hrefs
are joined to the origin; anything else goes through `new URL(href, baseUrl
+ basePath)` (the oracle), whose result is fragment-stripped; a throw is
caught and yields `null`. -/
def resolveUrl (env : Env) (href baseUrl basePath : String) : Option String :=
  if strStartsWith href "http" then some (stripHash href)
  else if strStartsWith href "/" then some (baseUrl ++ stripHash href)
  else (env.resolveRel href (baseUrl ++ basePath)).map stripHash

/-! ## The per-page worker and the frontier loop -/

/-- The link-discovery pass of `scrapePage` (scraper.js:192-202): for each
anchor `href` (in order), skip falsy hrefs, resolve, and push onto the queue
every resolved URL that passes `shouldFollow` against the *current* visited
set (the set does not change during the pass, so duplicate hrefs on one page
are pushed twice, as in the source). -/
def linkStep (env : Env) (visited : List String) (baseUrl basePath : String)
    (q : List String) (href : String) : List String :=
  if href.data.isEmpty then q
  else
    match resolveUrl env href baseUrl basePath with
    | none => q
    | some full =>
      if shouldFollow visited (some full) baseUrl basePath then q ++ [full]
      else q

def discoverLinks (env : Env) (visited : List String)
    (baseUrl basePath : String) (hrefs : List String) : List String :=
  hrefs.foldl (linkStep env visited baseUrl basePath) []

/-- `scrapePage(url, baseUrl, basePath)` (scraper.js:137-206).  An
already-visited URL is skipped; otherwise the URL is recorded as visited,
fetched, and on success a `Page` is appended; if the page count is still
below `maxPages`, in-scope links found on the page are appended to the
queue.  A fetch failure only records the visit.  (The source runs the link
discovery unconditionally — its comment notwithstanding — so this embedding
does too.) -/
def scrapePage (env : Env) (maxPages : Nat) (baseUrl basePath url : String)
    (st : CrawlState) : CrawlState :=
  if url ∈ st.visited then st
  else
    let st1 : CrawlState := { st with visited := url :: st.visited }
    match env.fetchPage url with
    | none => st1
    | some pd =>
      let title := jsTrim (jsOrStr (jsOrStr pd.h1 pd.docTitle) url)
      let page : Page :=
        { url := url, title := title, content := pd.markdown,
          wordCount := (jsSplitWs pd.markdown).length }
      let st2 : CrawlState := { st1 with pages := st1.pages ++ [page] }
      if st2.pages.length < maxPages then
        { st2 with
          queue := st2.queue ++
            discoverLinks env st2.visited baseUrl basePath pd.hrefs }
      else st2

/-- `await Promise.all(batch.map((url) => this.scrapePage(...)))`
(scraper.js:103-105, 124-126).  Batch members are processed sequentially in
dispatch order: a faithful linearization — each `scrapePage` checks and
extends `visited` before its suspension point, and `queue` is only consumed
between batches, so the state-level properties proved below are those of
every completion order. -/
def runBatch (env : Env) (maxPages : Nat) (baseUrl basePath : String)
    (batch : List String) (st : CrawlState) : CrawlState :=
  batch.foldl (fun s u => scrapePage env maxPages baseUrl basePath u s) st

/-- The frontier loop (scraper.js:101-106 and 122-127): while the queue is
nonempty and the page count is below `maxPages`, splice up to `concurrency`
URLs off the front of the queue and run them as one batch.  `fuel` bounds
the number of iterations; on exhaustion the current state is returned (all
theorems below hold for every fuel, hence for the terminating run). -/
def crawlLoop (env : Env) (cfg : Config) (baseUrl basePath : String) :
    Nat → CrawlState → CrawlState
  | 0, st => st
  | fuel + 1, st =>
    if 0 < st.queue.length ∧ st.pages.length < cfg.maxPages then
      let batch := st.queue.take cfg.concurrency
      let st1 : CrawlState := { st with queue := st.queue.drop cfg.concurrency }
      crawlLoop env cfg baseUrl basePath fuel
        (runBatch env cfg.maxPages baseUrl basePath batch st1)
    else st

/-! ## Sitemap resolver -/

/-- The candidate sitemap locations (scraper.js:52-58).  The source list has
five entries: `{base}/sitemap.xml` appears twice (lines 53 and 55). -/
def sitemapCandidates (baseUrl origin : String) : List String :=
  [baseUrl ++ "/sitemap.xml", baseUrl ++ "/sitemap_index.xml",
   baseUrl ++ "/sitemap.xml",
   origin ++ "/sitemap.xml", origin ++ "/sitemap_index.xml"]

/-- The URL list extracted from one fetched sitemap document
(scraper.js:68-78): the trimmed, nonempty `<loc>` texts under `<url>`
followed by those under `<sitemap>`. -/
def sitemapLocs (doc : List String × List String) : List String :=
  ((doc.1.map jsTrim).filter (fun u => !u.data.isEmpty)) ++
  ((doc.2.map jsTrim).filter (fun u => !u.data.isEmpty))

/-- The candidate-probing loop of `tryFetchSitemap` (scraper.js:60-86): a
fetch failure or an empty URL list advances to the next candidate; the first
nonempty URL list is returned; exhaustion yields `[]`. -/
def trySitemapList (env : Env) : List String → List String
  | [] => []
  | c :: rest =>
    match env.fetchSitemap c with
    | none => trySitemapList env rest
    | some doc =>
      let urls := sitemapLocs doc
      if urls.isEmpty then trySitemapList env rest else urls

/-- `tryFetchSitemap(baseUrl)` (scraper.js:50-87).  `new URL(baseUrl)` on
line 51 can throw (modelled as `none`); otherwise the candidate loop never
raises. -/
def tryFetchSitemap (env : Env) (baseUrl : String) : Option (List String) :=
  match env.parseUrl baseUrl with
  | none => none
  | some parts => some (trySitemapList env (sitemapCandidates baseUrl parts.origin))

/-- Modelled from the spec: §4.1's candidate list — four locations
(`{base}/sitemap.xml`, `{base}/sitemap_index.xml`, `{origin}/sitemap.xml`,
`{origin}/sitemap_index.xml`), without the source's duplicate third entry.
Used only to compare against `sitemapCandidates`. -/
def specSitemapCandidates (baseUrl origin : String) : List String :=
  [baseUrl ++ "/sitemap.xml", baseUrl ++ "/sitemap_index.xml",
   origin ++ "/sitemap.xml", origin ++ "/sitemap_index.xml"]

/-! ## Crawl entry points -/

/-- `scrapeFromSitemap(sitemapUrls)` (scraper.js:89-114): derive the scope
from the first sitemap URL (a parse failure there propagates, modelled as
`none`), filter the list by `shouldFollow`, truncate to `maxPages`, seed the
queue and run the frontier loop from the freshly cleared state. -/
def scrapeFromSitemap (env : Env) (cfg : Config) (fuel : Nat)
    (sitemapUrls : List String) : Option ScrapeResult :=
  match sitemapUrls.head? with
  | none =>
    let final := crawlLoop env cfg "" "" fuel ⟨[], [], []⟩
    some { pageCount := final.pages.length, pages := final.pages, baseUrl := "" }
  | some first =>
    match env.parseUrl first with
    | none => none
    | some parts =>
      let baseUrl := parts.origin
      let basePath := getBasePath env first
      let docUrls := sitemapUrls.filter
        (fun u => shouldFollow [] (some u) baseUrl basePath)
      let toScrape := docUrls.take cfg.maxPages
      let final := crawlLoop env cfg baseUrl basePath fuel ⟨[], toScrape, []⟩
      some { pageCount := final.pages.length, pages := final.pages,
             baseUrl := jsOrStr baseUrl first }

/-- `recursiveCrawl(startUrl)` (scraper.js:116-135): seed the queue with the
start URL alone, scope the crawl to its origin, and run the frontier loop.
`new URL(startUrl)` throwing is modelled as `none`. -/
def recursiveCrawl (env : Env) (cfg : Config) (fuel : Nat)
    (startUrl : String) : Option ScrapeResult :=
  match env.parseUrl startUrl with
  | none => none
  | some parts =>
    let baseUrl := parts.origin
    let basePath := getBasePath env startUrl
    let final := crawlLoop env cfg baseUrl basePath fuel ⟨[], [startUrl], []⟩
    some { pageCount := final.pages.length, pages := final.pages,
           baseUrl := startUrl }

/-- `scrape(startUrl)` (scraper.js:34-48): clear the frontier, try the
sitemap strategy, and fall back to the recursive crawl when it yields no
URLs.  `none` models a propagated exception. -/
def scrape (env : Env) (cfg : Config) (fuel : Nat)
    (startUrl : String) : Option ScrapeResult :=
  match tryFetchSitemap env startUrl with
  | none => none
  | some sitemapPages =>
    if 0 < sitemapPages.length then scrapeFromSitemap env cfg fuel sitemapPages
    else recursiveCrawl env cfg fuel startUrl

/-! ## Word-count lemmas -/

theorem jsSplitWsAux_nil (acc : List Char) :
    jsSplitWsAux [] acc = [acc.reverse] := by
  simp [jsSplitWsAux]

theorem jsSplitWsAux_cons_ws {c : Char} (cs acc : List Char)
    (h : isJsWs c = true) :
    jsSplitWsAux (c :: cs) acc = acc.reverse :: jsSplitWsSkip cs := by
  simp [jsSplitWsAux, h]

theorem jsSplitWsAux_cons_nws {c : Char} (cs acc : List Char)
    (h : isJsWs c = false) :
    jsSplitWsAux (c :: cs) acc = jsSplitWsAux cs (c :: acc) := by
  simp [jsSplitWsAux, h]

theorem jsSplitWsSkip_cons_ws {c : Char} (cs : List Char)
    (h : isJsWs c = true) : jsSplitWsSkip (c :: cs) = jsSplitWsSkip cs := by
  simp [jsSplitWsSkip, h]

theorem jsSplitWsSkip_cons_nws {c : Char} (cs : List Char)
    (h : isJsWs c = false) :
    jsSplitWsSkip (c :: cs) = jsSplitWsAux cs [c] := by
  simp [jsSplitWsSkip, h]

theorem countTokensAux_cons_ws {c : Char} (cs : List Char) (p : Bool)
    (h : isJsWs c = true) :
    countTokensAux (c :: cs) p = countTokensAux cs true := by
  simp [countTokensAux, h]

theorem countTokensAux_cons_nws {c : Char} (cs : List Char) (p : Bool)
    (h : isJsWs c = false) :
    countTokensAux (c :: cs) p = (if p then 1 else 0) + countTokensAux cs false := by
  simp [countTokensAux, h]

theorem lastOk_cons_cons (c d : Char) (ds : List Char) :
    lastOk (c :: d :: ds) = lastOk (d :: ds) := by
  simp [lastOk]

/-- Joint shape of the two `split(/\s+/)` workers: when the string does not
end in whitespace, the number of fields produced by `jsSplitWsAux` is one
more than the number of tokens still to come (the final field never closes),
and the number produced by `jsSplitWsSkip` on a nonempty rest equals the
number of tokens still to come. -/
theorem jsSplitWs_length_spec (s : List Char) :
    (∀ acc : List Char, lastOk s = true →
      (jsSplitWsAux s acc).length = countTokensAux s false + 1) ∧
    (lastOk s = true → s ≠ [] →
      (jsSplitWsSkip s).length = countTokensAux s true) := by
  induction s with
  | nil =>
    refine ⟨fun acc _ => by simp [jsSplitWsAux_nil, countTokensAux], fun _ h => absurd rfl h⟩
  | cons c cs ih =>
    obtain ⟨ih1, ih2⟩ := ih
    by_cases hc : isJsWs c = true
    · refine ⟨fun acc hlast => ?_, fun hlast _ => ?_⟩
      · cases cs with
        | nil => simp [lastOk, hc] at hlast
        | cons d ds =>
          rw [lastOk_cons_cons] at hlast
          rw [jsSplitWsAux_cons_ws _ _ hc, countTokensAux_cons_ws _ _ hc,
            List.length_cons, ih2 hlast (by simp)]
      · cases cs with
        | nil => simp [lastOk, hc] at hlast
        | cons d ds =>
          rw [lastOk_cons_cons] at hlast
          rw [jsSplitWsSkip_cons_ws _ hc, countTokensAux_cons_ws _ _ hc]
          exact ih2 hlast (by simp)
    · have hc' : isJsWs c = false := by simpa using hc
      refine ⟨fun acc hlast => ?_, fun hlast _ => ?_⟩
      · rw [jsSplitWsAux_cons_nws _ _ hc', countTokensAux_cons_nws _ _ hc']
        cases cs with
        | nil => simp [jsSplitWsAux_nil, countTokensAux]
        | cons d ds =>
          rw [lastOk_cons_cons] at hlast
          rw [ih1 (c :: acc) hlast]
          simp
      · rw [jsSplitWsSkip_cons_nws _ hc', countTokensAux_cons_nws _ _ hc']
        cases cs with
        | nil => simp [jsSplitWsAux_nil, countTokensAux]
        | cons d ds =>
          rw [lastOk_cons_cons] at hlast
          rw [ih1 [c] hlast]
          simp [Nat.add_comm]

/-- For a nonempty string that neither starts nor ends with whitespace, the
length of its JS `split(/\s+/)` equals its whitespace-delimited token
count. -/
theorem jsSplitWs_length_eq_countTokens (s : String)
    (h1 : headOk s.data = true) (h2 : lastOk s.data = true)
    (hne : s.data ≠ []) : (jsSplitWs s).length = countTokens s := by
  unfold jsSplitWs countTokens
  rw [List.length_map]
  cases hd : s.data with
  | nil => exact absurd hd hne
  | cons c cs =>
    have hc : isJsWs c = false := by
      have := h1; rw [hd] at this; simpa [headOk] using this
    rw [hd] at h2
    rw [jsSplitWsAux_cons_nws _ _ hc, countTokensAux_cons_nws _ _ hc]
    cases cs with
    | nil => simp [jsSplitWsAux_nil, countTokensAux]
    | cons d ds =>
      rw [lastOk_cons_cons] at h2
      rw [(jsSplitWs_length_spec (d :: ds)).1 [c] h2]
      simp [Nat.add_comm]

/-! ## Frontier-loop invariants -/

/-- Structural invariant of the frontier state: collected page URLs are
pairwise distinct, every collected page's URL has been dispatched (is in
`visited`), and every page's `wordCount` is the length of the JS
whitespace split of its `content`. -/
def PagesGood (st : CrawlState) : Prop :=
  (st.pages.map Page.url).Nodup ∧
  (∀ p ∈ st.pages, p.url ∈ st.visited) ∧
  (∀ p ∈ st.pages, p.wordCount = (jsSplitWs p.content).length)

theorem scrapePage_pagesGood (env : Env) (mp : Nat) (b bp u : String)
    (st : CrawlState) (h : PagesGood st) :
    PagesGood (scrapePage env mp b bp u st) := by
  obtain ⟨h1, h2, h3⟩ := h
  have hless : u ∉ st.visited → ∀ (q : List String) (pg : Page),
      pg.url = u → pg.wordCount = (jsSplitWs pg.content).length →
      PagesGood ⟨u :: st.visited, q, st.pages ++ [pg]⟩ := by
    intro hvis q pg hpgu hpgw
    refine ⟨?_, ?_, ?_⟩
    · have hnotm : pg.url ∉ st.pages.map Page.url := by
        intro hm
        obtain ⟨p, hp, hpu⟩ := List.mem_map.mp hm
        exact hvis (hpgu ▸ hpu ▸ h2 p hp)
      simpa [List.nodup_append, h1] using hnotm
    · intro p hp
      rcases List.mem_append.mp hp with hold | hnew
      · exact List.mem_cons_of_mem _ (h2 p hold)
      · simp at hnew
        subst hnew
        exact hpgu ▸ List.mem_cons_self _ _
    · intro p hp
      rcases List.mem_append.mp hp with hold | hnew
      · exact h3 p hold
      · simp at hnew
        subst hnew
        exact hpgw
  unfold scrapePage
  split
  · exact ⟨h1, h2, h3⟩
  · rename_i hvis
    split
    · exact ⟨h1, fun p hp => List.mem_cons_of_mem _ (h2 p hp), h3⟩
    · rename_i pd _
      dsimp only
      split
      · exact hless hvis _ _ rfl rfl
      · exact hless hvis _ _ rfl rfl

theorem runBatch_pagesGood (env : Env) (mp : Nat) (b bp : String)
    (batch : List String) (st : CrawlState) (h : PagesGood st) :
    PagesGood (runBatch env mp b bp batch st) := by
  induction batch generalizing st with
  | nil => exact h
  | cons v vs ih =>
    exact ih _ (scrapePage_pagesGood env mp b bp v st h)

theorem crawlLoop_pagesGood (env : Env) (cfg : Config) (b bp : String)
    (fuel : Nat) (st : CrawlState) (h : PagesGood st) :
    PagesGood (crawlLoop env cfg b bp fuel st) := by
  induction fuel generalizing st with
  | zero => exact h
  | succ n ih =>
    unfold crawlLoop
    split
    · exact ih _ (runBatch_pagesGood env cfg.maxPages b bp _ _ h)
    · exact h

/-- `scrapePage` appends at most one page. -/
theorem scrapePage_pages_le (env : Env) (mp : Nat) (b bp u : String)
    (st : CrawlState) :
    (scrapePage env mp b bp u st).pages.length ≤ st.pages.length + 1 := by
  unfold scrapePage
  split
  · omega
  · split
    · simp
    · dsimp only
      split <;> simp

/-- A batch appends at most one page per member. -/
theorem runBatch_pages_le (env : Env) (mp : Nat) (b bp : String)
    (batch : List String) (st : CrawlState) :
    (runBatch env mp b bp batch st).pages.length ≤
      st.pages.length + batch.length := by
  induction batch generalizing st with
  | nil => simp [runBatch]
  | cons v vs ih =>
    calc (runBatch env mp b bp (v :: vs) st).pages.length
        ≤ (scrapePage env mp b bp v st).pages.length + vs.length := ih _
      _ ≤ st.pages.length + 1 + vs.length :=
          Nat.add_le_add_right (scrapePage_pages_le env mp b bp v st) _
      _ = st.pages.length + (v :: vs).length := by simp; omega

/-- A batch is dispatched only while the page count is below `maxPages` and
has at most `concurrency` members, so the loop never pushes the page count
to `maxPages + concurrency` or beyond. -/
theorem crawlLoop_pages_lt (env : Env) (cfg : Config) (b bp : String)
    (fuel : Nat) (st : CrawlState)
    (h : st.pages.length < cfg.maxPages + cfg.concurrency) :
    (crawlLoop env cfg b bp fuel st).pages.length <
      cfg.maxPages + cfg.concurrency := by
  induction fuel generalizing st with
  | zero => exact h
  | succ n ih =>
    unfold crawlLoop
    split
    · rename_i hcond
      refine ih _ ?_
      calc (runBatch env cfg.maxPages b bp (st.queue.take cfg.concurrency)
              { st with queue := st.queue.drop cfg.concurrency }).pages.length
          ≤ st.pages.length + (st.queue.take cfg.concurrency).length :=
            runBatch_pages_le _ _ _ _ _ _
        _ ≤ st.pages.length + cfg.concurrency := by
            have := List.length_take_le cfg.concurrency st.queue
            omega
        _ < cfg.maxPages + cfg.concurrency :=
            Nat.add_lt_add_right hcond.2 _
    · exact h

/-- With `concurrency = 1` the page budget is a hard cap. -/
theorem crawlLoop_pages_le_of_one (env : Env) (cfg : Config) (b bp : String)
    (fuel : Nat) (st : CrawlState) (hc : cfg.concurrency = 1)
    (h : st.pages.length ≤ cfg.maxPages) :
    (crawlLoop env cfg b bp fuel st).pages.length ≤ cfg.maxPages := by
  induction fuel generalizing st with
  | zero => exact h
  | succ n ih =>
    unfold crawlLoop
    split
    · rename_i hcond
      refine ih _ ?_
      calc (runBatch env cfg.maxPages b bp (st.queue.take cfg.concurrency)
              { st with queue := st.queue.drop cfg.concurrency }).pages.length
          ≤ st.pages.length + (st.queue.take cfg.concurrency).length :=
            runBatch_pages_le _ _ _ _ _ _
        _ ≤ st.pages.length + 1 := by
            have := List.length_take_le cfg.concurrency st.queue
            omega
        _ ≤ cfg.maxPages := hcond.2
    · exact h

/-! ## URL-scope invariants -/

/-- The time-independent part of the in-scope predicate: same origin and no
denylisted substring. -/
def InScopeUrl (baseUrl u : String) : Prop :=
  strStartsWith u baseUrl = true ∧
  ∀ pat ∈ excludePatterns, containsSub u pat = false

/-- Every URL produced by the link-discovery fold passed `shouldFollow`. -/
theorem mem_linkStep_foldl (env : Env) (visited : List String) (b bp : String) :
    ∀ (hrefs acc : List String), ∀ u ∈ hrefs.foldl (linkStep env visited b bp) acc,
      u ∈ acc ∨ shouldFollow visited (some u) b bp = true := by
  intro hrefs
  induction hrefs with
  | nil => exact fun acc u hu => Or.inl hu
  | cons h t ih =>
    intro acc u hu
    rw [List.foldl_cons] at hu
    rcases ih _ u hu with hin | hsf
    · unfold linkStep at hin
      split at hin
      · exact Or.inl hin
      · split at hin
        · exact Or.inl hin
        · rename_i full _
          split at hin
          · rcases List.mem_append.mp hin with h1 | h2
            · exact Or.inl h1
            · simp at h2
              subst h2
              exact Or.inr ‹_›
          · exact Or.inl hin
    · exact Or.inr hsf

theorem mem_discoverLinks (env : Env) (visited : List String) (b bp : String)
    (hrefs : List String) (u : String)
    (hu : u ∈ discoverLinks env visited b bp hrefs) :
    shouldFollow visited (some u) b bp = true := by
  rcases mem_linkStep_foldl env visited b bp hrefs [] u hu with h | h
  · simp at h
  · exact h

/-- `shouldFollow` only passes same-origin, non-denylisted URLs. -/
theorem shouldFollow_inScope (visited : List String) (u : String) (b bp : String)
    (h : shouldFollow visited (some u) b bp = true) : InScopeUrl b u := by
  have h' : (if u.data.isEmpty then false
      else if !strStartsWith u b then false
      else if u ∈ visited then false
      else excludePatterns.all fun pat => !containsSub u pat) = true := h
  split at h'
  · simp at h'
  · rename_i hne
    split at h'
    · simp at h'
    · rename_i hsw
      split at h'
      · simp at h'
      · rename_i hvis
        refine ⟨by simpa using hsw, fun pat hp => ?_⟩
        have := List.all_eq_true.mp h' pat hp
        simpa using this

/-- Frontier invariant tracking a property of every URL that has entered the
frontier (queued, visited, or collected). -/
def UrlInv (P : String → Prop) (st : CrawlState) : Prop :=
  (∀ u ∈ st.queue, P u) ∧ (∀ u ∈ st.visited, P u) ∧ (∀ p ∈ st.pages, P p.url)

theorem scrapePage_urlInv (env : Env) (mp : Nat) (b bp u : String)
    (st : CrawlState) (P : String → Prop)
    (hsf : ∀ (vis : List String) (w : String),
      shouldFollow vis (some w) b bp = true → P w)
    (hu : P u) (h : UrlInv P st) : UrlInv P (scrapePage env mp b bp u st) := by
  obtain ⟨h1, h2, h3⟩ := h
  unfold scrapePage
  split
  · exact ⟨h1, h2, h3⟩
  · split
    · refine ⟨h1, fun w hw => ?_, h3⟩
      rcases List.mem_cons.mp hw with rfl | hw
      · exact hu
      · exact h2 w hw
    · rename_i pd _
      dsimp only
      have hvis' : ∀ w ∈ u :: st.visited, P w := by
        intro w hw
        rcases List.mem_cons.mp hw with rfl | hw
        · exact hu
        · exact h2 w hw
      have hpages' : ∀ p ∈ st.pages ++
          [⟨u, jsTrim (jsOrStr (jsOrStr pd.h1 pd.docTitle) u), pd.markdown,
            (jsSplitWs pd.markdown).length⟩], P p.url := by
        intro p hp
        rcases List.mem_append.mp hp with hold | hnew
        · exact h3 p hold
        · simp at hnew
          subst hnew
          exact hu
      split
      · refine ⟨fun w hw => ?_, hvis', hpages'⟩
        rcases List.mem_append.mp hw with hq | hd
        · exact h1 w hq
        · exact hsf _ _ (mem_discoverLinks env _ b bp pd.hrefs w hd)
      · exact ⟨h1, hvis', hpages'⟩

theorem runBatch_urlInv (env : Env) (mp : Nat) (b bp : String)
    (P : String → Prop)
    (hsf : ∀ (vis : List String) (w : String),
      shouldFollow vis (some w) b bp = true → P w) :
    ∀ (batch : List String) (st : CrawlState),
      (∀ v ∈ batch, P v) → UrlInv P st →
      UrlInv P (runBatch env mp b bp batch st) := by
  intro batch
  induction batch with
  | nil => exact fun st _ h => h
  | cons v vs ih =>
    intro st hbatch h
    exact ih _ (fun w hw => hbatch w (List.mem_cons_of_mem _ hw))
      (scrapePage_urlInv env mp b bp v st P hsf
        (hbatch v (List.mem_cons_self _ _)) h)

theorem crawlLoop_urlInv (env : Env) (cfg : Config) (b bp : String)
    (fuel : Nat) (st : CrawlState) (P : String → Prop)
    (hsf : ∀ (vis : List String) (w : String),
      shouldFollow vis (some w) b bp = true → P w)
    (h : UrlInv P st) : UrlInv P (crawlLoop env cfg b bp fuel st) := by
  induction fuel generalizing st with
  | zero => exact h
  | succ n ih =>
    unfold crawlLoop
    split
    · refine ih _ (runBatch_urlInv env cfg.maxPages b bp P hsf _ _ ?_ ?_)
      · exact fun v hv => h.1 v (List.take_subset _ _ hv)
      · exact ⟨fun v hv => h.1 v (List.drop_subset _ _ hv), h.2.1, h.2.2⟩
    · exact h

/-! ## Per-page failure recovery -/

/-- A failed fetch records the visit and nothing else. -/
theorem scrapePage_fetchFail (env : Env) (mp : Nat) (b bp u : String)
    (st : CrawlState) (hf : env.fetchPage u = none) :
    (scrapePage env mp b bp u st).pages = st.pages ∧
    (scrapePage env mp b bp u st).queue = st.queue := by
  unfold scrapePage
  split
  · exact ⟨rfl, rfl⟩
  · split
    · exact ⟨rfl, rfl⟩
    · rename_i pd heq
      rw [hf] at heq
      cases heq

theorem runBatch_fetchFail (env : Env) (mp : Nat) (b bp : String)
    (batch : List String) (st : CrawlState)
    (hf : ∀ u, env.fetchPage u = none) :
    (runBatch env mp b bp batch st).pages = st.pages := by
  induction batch generalizing st with
  | nil => rfl
  | cons v vs ih =>
    calc (runBatch env mp b bp (v :: vs) st).pages
        = (scrapePage env mp b bp v st).pages := ih (scrapePage env mp b bp v st)
      _ = st.pages := (scrapePage_fetchFail env mp b bp v st (hf v)).1

theorem crawlLoop_fetchFail (env : Env) (cfg : Config) (b bp : String)
    (fuel : Nat) (st : CrawlState) (hf : ∀ u, env.fetchPage u = none) :
    (crawlLoop env cfg b bp fuel st).pages = st.pages := by
  induction fuel generalizing st with
  | zero => rfl
  | succ n ih =>
    unfold crawlLoop
    split
    · rw [ih _, runBatch_fetchFail env cfg.maxPages b bp _ _ hf]
    · rfl

/-! ## Result shape -/

/-- Every successful `scrape` result is assembled from a frontier-loop run
seeded from the freshly cleared state, with `pageCount` set to the length of
the collected pages. -/
theorem scrape_shape (env : Env) (cfg : Config) (fuel : Nat) (u : String)
    (r : ScrapeResult) (h : scrape env cfg fuel u = some r) :
    ∃ b bp seed, r.pages = (crawlLoop env cfg b bp fuel ⟨[], seed, []⟩).pages ∧
      r.pageCount = (crawlLoop env cfg b bp fuel ⟨[], seed, []⟩).pages.length := by
  unfold scrape at h
  split at h
  · exact Option.noConfusion h
  · split at h
    · unfold scrapeFromSitemap at h
      split at h
      · dsimp only at h
        injection h with h
        subst h
        exact ⟨"", "", [], rfl, rfl⟩
      · rename_i first _
        split at h
        · exact Option.noConfusion h
        · rename_i parts _
          dsimp only at h
          injection h with h
          subst h
          exact ⟨parts.origin, getBasePath env first, _, rfl, rfl⟩
    · unfold recursiveCrawl at h
      split at h
      · exact Option.noConfusion h
      · rename_i parts _
        dsimp only at h
        injection h with h
        subst h
        exact ⟨parts.origin, getBasePath env u, [u], rfl, rfl⟩

/-! ## Sitemap resolver lemmas -/

/-- What one candidate contributes: the parsed URL list of a successful
fetch, `[]` on a fetch error (both cases advance the loop when empty). -/
def sitemapAttempt (env : Env) (c : String) : List String :=
  match env.fetchSitemap c with
  | none => []
  | some doc => sitemapLocs doc

/-- Modelled from the spec (§4.1): try each candidate in order; a fetch
error or an empty parse advances to the next candidate; the first nonempty
URL list is returned; exhausting all candidates returns `[]`.  Written from
the spec's words to compare against `trySitemapList`. -/
def specFirstSitemap (env : Env) : List String → List String
  | [] => []
  | c :: rest =>
    if (sitemapAttempt env c).isEmpty then specFirstSitemap env rest
    else sitemapAttempt env c

theorem trySitemapList_skip (env : Env) (c : String) (rest : List String)
    (h : sitemapAttempt env c = []) :
    trySitemapList env (c :: rest) = trySitemapList env rest := by
  unfold sitemapAttempt at h
  conv_lhs => rw [trySitemapList]
  cases hf : env.fetchSitemap c with
  | none => rfl
  | some doc =>
    rw [hf] at h
    dsimp only at h ⊢
    rw [if_pos (by simp [h])]

theorem trySitemapList_hit (env : Env) (c : String) (rest : List String)
    (h : sitemapAttempt env c ≠ []) :
    trySitemapList env (c :: rest) = sitemapAttempt env c := by
  unfold sitemapAttempt at h ⊢
  conv_lhs => rw [trySitemapList]
  cases hf : env.fetchSitemap c with
  | none => rw [hf] at h; exact absurd rfl h
  | some doc =>
    rw [hf] at h
    dsimp only at h ⊢
    rw [if_neg (by simpa using h)]

theorem specFirstSitemap_skip (env : Env) (c : String) (rest : List String)
    (h : sitemapAttempt env c = []) :
    specFirstSitemap env (c :: rest) = specFirstSitemap env rest := by
  conv_lhs => rw [specFirstSitemap]
  rw [if_pos (by simp [h])]

theorem specFirstSitemap_hit (env : Env) (c : String) (rest : List String)
    (h : sitemapAttempt env c ≠ []) :
    specFirstSitemap env (c :: rest) = sitemapAttempt env c := by
  conv_lhs => rw [specFirstSitemap]
  rw [if_neg (by simpa using h)]

/-- The candidate loop computes the spec's first-nonempty semantics, and the
source's duplicate third candidate (`{base}/sitemap.xml` again) never
changes the result: the oracle is deterministic, so a candidate that failed
or parsed empty the first time does so again. -/
theorem trySitemapList_eq_specFirst (env : Env) (b o : String) :
    trySitemapList env (sitemapCandidates b o) =
      specFirstSitemap env (specSitemapCandidates b o) := by
  unfold sitemapCandidates specSitemapCandidates
  by_cases h1 : sitemapAttempt env (b ++ "/sitemap.xml") = []
  · rw [trySitemapList_skip env _ _ h1, specFirstSitemap_skip env _ _ h1]
    by_cases h2 : sitemapAttempt env (b ++ "/sitemap_index.xml") = []
    · rw [trySitemapList_skip env _ _ h2, specFirstSitemap_skip env _ _ h2,
        trySitemapList_skip env _ _ h1]
      by_cases h3 : sitemapAttempt env (o ++ "/sitemap.xml") = []
      · rw [trySitemapList_skip env _ _ h3, specFirstSitemap_skip env _ _ h3]
        by_cases h4 : sitemapAttempt env (o ++ "/sitemap_index.xml") = []
        · rw [trySitemapList_skip env _ _ h4, specFirstSitemap_skip env _ _ h4]
          rfl
        · rw [trySitemapList_hit env _ _ h4, specFirstSitemap_hit env _ _ h4]
      · rw [trySitemapList_hit env _ _ h3, specFirstSitemap_hit env _ _ h3]
    · rw [trySitemapList_hit env _ _ h2, specFirstSitemap_hit env _ _ h2]
  · rw [trySitemapList_hit env _ _ h1, specFirstSitemap_hit env _ _ h1]

theorem specFirstSitemap_exhausted (env : Env) (l : List String)
    (h : ∀ c ∈ l, sitemapAttempt env c = []) : specFirstSitemap env l = [] := by
  induction l with
  | nil => rfl
  | cons c rest ih =>
    rw [specFirstSitemap_skip env c rest (h c (List.mem_cons_self _ _))]
    exact ih fun d hd => h d (List.mem_cons_of_mem _ hd)

/-! ## Test fixtures (concrete oracle environments) -/

/-- The default configuration `new DocumentationScraper({})`. -/
def cfgDefault : Config := mkConfig {}

/-- A site whose sitemap lists only `/docs/a`, while the page at `/docs/a`
links to `/docs/b`. -/
def envSitemapBug : Env where
  parseUrl := fun u =>
    if u = "https://example.com/docs" then
      some ⟨"https://example.com", "/docs"⟩
    else if u = "https://example.com/docs/a" then
      some ⟨"https://example.com", "/docs/a"⟩
    else none
  fetchPage := fun u =>
    if u = "https://example.com/docs/a" then
      some ⟨"A", "", "alpha beta", ["/docs/b"]⟩
    else if u = "https://example.com/docs/b" then
      some ⟨"B", "", "gamma", []⟩
    else none
  fetchSitemap := fun u =>
    if u = "https://example.com/docs/sitemap.xml" then
      some (["https://example.com/docs/a"], [])
    else none
  resolveRel := fun _ _ => none

/-- A site with no sitemap: the page at `/docs/a` links to `/docs/b` (twice)
and to `/blog/post`; `/docs/b` has no links. -/
def envRec : Env where
  parseUrl := fun u =>
    if u = "https://example.com/docs/a" then
      some ⟨"https://example.com", "/docs/a"⟩
    else none
  fetchPage := fun u =>
    if u = "https://example.com/docs/a" then
      some ⟨"A", "", "one two three", ["/docs/b", "/blog/post", "/docs/b"]⟩
    else if u = "https://example.com/docs/b" then
      some ⟨"B", "", "four five", []⟩
    else none
  fetchSitemap := fun _ => none
  resolveRel := fun _ _ => none

/-- The recursive crawl of `envRec` from `/docs/a`. -/
def resRec : ScrapeResult :=
  (scrape envRec cfgDefault 10 "https://example.com/docs/a").getD default

/-- A site with no sitemap whose root links to two children — enough to
overshoot a budget of 2 with concurrency 2. -/
def envOver : Env where
  parseUrl := fun u =>
    if u = "https://example.com/docs" then
      some ⟨"https://example.com", "/docs"⟩
    else none
  fetchPage := fun u =>
    if u = "https://example.com/docs" then
      some ⟨"Docs", "", "root words", ["/docs/x", "/docs/y"]⟩
    else if u = "https://example.com/docs/x" then some ⟨"X", "", "xray", []⟩
    else if u = "https://example.com/docs/y" then some ⟨"Y", "", "yankee", []⟩
    else none
  fetchSitemap := fun _ => none
  resolveRel := fun _ _ => none

/-- `{ maxPages: 2, concurrency: 2 }`. -/
def cfgOver : Config := mkConfig { maxPages := some 2, concurrency := some 2 }

/-- `{ maxPages: 2, concurrency: 1 }`. -/
def cfgOne : Config := mkConfig { maxPages := some 2, concurrency := some 1 }

/-- The crawl of `envOver` with budget 2 and concurrency 2. -/
def resOver : ScrapeResult :=
  (scrape envOver cfgOver 10 "https://example.com/docs").getD default

/-- The crawl of `envOver` with budget 2 and concurrency 1. -/
def resOne : ScrapeResult :=
  (scrape envOver cfgOne 10 "https://example.com/docs").getD default

/-- Every URL parses, every page fetch fails, no sitemap answers. -/
def envAllFail : Env where
  parseUrl := fun _ => some ⟨"https://example.com", "/docs"⟩
  fetchPage := fun _ => none
  fetchSitemap := fun _ => none
  resolveRel := fun _ _ => none

/-- A site whose only page converts to the empty Markdown string. -/
def envEmpty : Env where
  parseUrl := fun u =>
    if u = "https://example.com/docs" then
      some ⟨"https://example.com", "/docs"⟩
    else none
  fetchPage := fun u =>
    if u = "https://example.com/docs" then some ⟨"", "", "", []⟩ else none
  fetchSitemap := fun _ => none
  resolveRel := fun _ _ => none

/-- The crawl of `envEmpty`. -/
def resEmpty : ScrapeResult :=
  (scrape envEmpty cfgDefault 5 "https://example.com/docs").getD default

/-! ## Remaining helper lemmas -/

theorem jsOrNat_pos (v : Option Nat) (d : Nat) (hd : 0 < d) :
    0 < jsOrNat v d := by
  cases v with
  | none => exact hd
  | some n =>
    show 0 < if n = 0 then d else n
    split
    · exact hd
    · rename_i hn
      omega

/-- When every page fetch fails but every URL parses, `scrape` still returns
a result, and it carries no pages. -/
theorem scrape_allFail_exists (env : Env) (cfg : Config) (fuel : Nat)
    (u : String) (hp : ∀ v, (env.parseUrl v).isSome = true)
    (hf : ∀ v, env.fetchPage v = none) :
    ∃ r, scrape env cfg fuel u = some r ∧ r.pages = [] ∧ r.pageCount = 0 := by
  obtain ⟨parts, hparts⟩ := Option.isSome_iff_exists.mp (hp u)
  have hmain : ∀ (b bp : String) (seed : List String),
      (crawlLoop env cfg b bp fuel ⟨[], seed, []⟩).pages = [] :=
    fun b bp seed => crawlLoop_fetchFail env cfg b bp fuel _ hf
  unfold scrape tryFetchSitemap
  rw [hparts]
  dsimp only
  split
  · unfold scrapeFromSitemap
    cases hh : (trySitemapList env (sitemapCandidates u parts.origin)).head? with
    | none =>
      dsimp only
      exact ⟨_, rfl, by simp [hmain], by simp [hmain]⟩
    | some first =>
      obtain ⟨p2, hp2⟩ := Option.isSome_iff_exists.mp (hp first)
      dsimp only
      rw [hp2]
      dsimp only
      exact ⟨_, rfl, by simp [hmain], by simp [hmain]⟩
  · unfold recursiveCrawl
    rw [hparts]
    dsimp only
    exact ⟨_, rfl, by simp [hmain], by simp [hmain]⟩

/-! ## The claims -/

/-- C1 — the claim is the spec's (and the source comment's) intent, and the
code violates it: in sitemap mode the sitemap for
`https://example.com/docs` yields exactly `["https://example.com/docs/a"]`,
yet the crawl's collected URLs are `/docs/a` *and* `/docs/b`, where
`/docs/b` was discovered only inside the fetched page `/docs/a`.  Sitemap
mode does append pages from links found in fetched HTML, because
`scrapePage` runs its link-discovery pass unconditionally
(scraper.js:191-202) and `scrapeFromSitemap`'s loop keeps draining the
shared queue those links land in. -/
theorem c1_sitemap_mode_follows_links :
    tryFetchSitemap envSitemapBug "https://example.com/docs" =
      some ["https://example.com/docs/a"] ∧
    ((scrape envSitemapBug cfgDefault 10 "https://example.com/docs").getD
        default).pages.map Page.url =
      ["https://example.com/docs/a", "https://example.com/docs/b"] ∧
    "https://example.com/docs/b" ∉ ["https://example.com/docs/a"] :=
  ⟨rfl, rfl, by decide⟩

/-- C2 counterexample — with `maxPages = 2`, `concurrency = 2` the recursive
crawl of `envOver` hands the caller three pages: the budget is not a hard
cap. -/
theorem c2_budget_counterexample :
    cfgOver.maxPages = 2 ∧
    (scrape envOver cfgOver 10 "https://example.com/docs").map
      (fun r => r.pages.length) = some 3 ∧
    ¬((scrape envOver cfgOver 10 "https://example.com/docs").getD
        default).pages.length ≤ cfgOver.maxPages :=
  ⟨rfl, rfl, by decide⟩

/-- C2 (amended) — the page budget is a hard cap only when `concurrency =
1`: then every crawl returns at most `maxPages` pages.  (With larger
concurrency only the overshoot bound of C4 holds.) -/
theorem c2_budget_cap_amended (env : Env) (cfg : Config) (fuel : Nat)
    (u : String) (r : ScrapeResult) (hc : cfg.concurrency = 1)
    (h : scrape env cfg fuel u = some r) :
    r.pages.length ≤ cfg.maxPages := by
  obtain ⟨b, bp, seed, hpages, _⟩ := scrape_shape env cfg fuel u r h
  rw [hpages]
  exact crawlLoop_pages_le_of_one env cfg b bp fuel _ hc (Nat.zero_le _)

theorem c2_budget_cap_amended_witness :
    resOne.pages.length ≤ cfgOne.maxPages :=
  c2_budget_cap_amended envOver cfgOne 10 "https://example.com/docs"
    resOne rfl rfl

/-- C3 — every successful crawl, in either mode, returns a result whose
`pageCount` equals the length of its `pages` list. -/
theorem c3_pageCount_eq_len (env : Env) (cfg : Config) (fuel : Nat)
    (u : String) (r : ScrapeResult) (h : scrape env cfg fuel u = some r) :
    r.pageCount = r.pages.length := by
  obtain ⟨b, bp, seed, hpages, hcount⟩ := scrape_shape env cfg fuel u r h
  rw [hcount, hpages]

theorem c3_pageCount_eq_len_witness :
    resRec.pageCount = resRec.pages.length :=
  c3_pageCount_eq_len envRec cfgDefault 10 "https://example.com/docs/a"
    resRec rfl

/-- C4 — the overshoot bound: a batch of at most `concurrency` URLs is
dispatched only while the page count is below `maxPages` and each batch
member appends at most one page, so every crawl returns strictly fewer than
`maxPages + concurrency` pages. -/
theorem c4_overshoot_bound (env : Env) (cfg : Config) (fuel : Nat)
    (u : String) (r : ScrapeResult) (hc : 0 < cfg.concurrency)
    (h : scrape env cfg fuel u = some r) :
    r.pages.length < cfg.maxPages + cfg.concurrency := by
  obtain ⟨b, bp, seed, hpages, _⟩ := scrape_shape env cfg fuel u r h
  rw [hpages]
  refine crawlLoop_pages_lt env cfg b bp fuel _ ?_
  have : (⟨[], seed, []⟩ : CrawlState).pages.length = 0 := rfl
  omega

theorem c4_overshoot_bound_witness :
    resOver.pages.length < cfgOver.maxPages + cfgOver.concurrency :=
  c4_overshoot_bound envOver cfgOver 10 "https://example.com/docs"
    resOver (by decide) rfl

/-- C5 — no two pages of one result share a URL: `scrapePage` tests and
records `visited` membership before fetching, so every collected URL was
unvisited at dispatch and page URLs stay pairwise distinct, even with
duplicates in the queue or inside one batch. -/
theorem c5_no_duplicate_urls (env : Env) (cfg : Config) (fuel : Nat)
    (u : String) (r : ScrapeResult) (h : scrape env cfg fuel u = some r) :
    (r.pages.map Page.url).Nodup := by
  obtain ⟨b, bp, seed, hpages, _⟩ := scrape_shape env cfg fuel u r h
  rw [hpages]
  exact (crawlLoop_pagesGood env cfg b bp fuel _
    ⟨by simp, by simp, by simp⟩).1

theorem c5_no_duplicate_urls_witness :
    (resRec.pages.map Page.url).Nodup :=
  c5_no_duplicate_urls envRec cfgDefault 10 "https://example.com/docs/a"
    resRec rfl

/-- C6 — in recursive mode every collected page other than the start URL
passed `shouldFollow` when it was enqueued, so its URL starts with the
scope's origin and contains none of the denylist substrings. -/
theorem c6_recursive_scope (env : Env) (cfg : Config) (fuel : Nat)
    (startUrl : String) (parts : UrlParts) (r : ScrapeResult)
    (hp : env.parseUrl startUrl = some parts)
    (h : recursiveCrawl env cfg fuel startUrl = some r) :
    ∀ p ∈ r.pages, p.url = startUrl ∨ InScopeUrl parts.origin p.url := by
  unfold recursiveCrawl at h
  rw [hp] at h
  dsimp only at h
  injection h with h
  subst h
  intro p hpm
  have hinv := crawlLoop_urlInv env cfg parts.origin (getBasePath env startUrl)
    fuel ⟨[], [startUrl], []⟩
    (fun w => w = startUrl ∨ InScopeUrl parts.origin w)
    (fun vis w hw => Or.inr (shouldFollow_inScope vis w _ _ hw))
    ⟨fun v hv => Or.inl (by simpa using hv), by simp, by simp⟩
  exact hinv.2.2 p hpm

theorem c6_recursive_scope_witness :
    (resRec.pages.getD 1 default).url = "https://example.com/docs/a" ∨
    InScopeUrl "https://example.com" (resRec.pages.getD 1 default).url :=
  c6_recursive_scope envRec cfgDefault 10 "https://example.com/docs/a"
    ⟨"https://example.com", "/docs/a"⟩ resRec rfl rfl
    (resRec.pages.getD 1 default) (by decide)

/-- C7 — the sitemap resolver implements the spec's first-success semantics
over the four candidate locations (the source's duplicate third candidate
cannot change the result of a deterministic oracle): the first candidate
that fetches and parses to a nonempty `<loc>` list wins, a fetch error or
empty parse advances, and exhausting all candidates returns `[]` rather
than an error. -/
theorem c7_sitemap_resolver (env : Env) (baseUrl : String) (parts : UrlParts)
    (hp : env.parseUrl baseUrl = some parts) :
    tryFetchSitemap env baseUrl =
      some (specFirstSitemap env (specSitemapCandidates baseUrl parts.origin)) ∧
    ((∀ c ∈ specSitemapCandidates baseUrl parts.origin,
        sitemapAttempt env c = []) →
      tryFetchSitemap env baseUrl = some []) := by
  have h1 : tryFetchSitemap env baseUrl =
      some (trySitemapList env (sitemapCandidates baseUrl parts.origin)) := by
    unfold tryFetchSitemap
    rw [hp]
  constructor
  · rw [h1, trySitemapList_eq_specFirst]
  · intro hall
    rw [h1, trySitemapList_eq_specFirst,
      specFirstSitemap_exhausted env _ hall]

theorem c7_sitemap_resolver_witness :
    tryFetchSitemap envRec "https://example.com/docs/a" = some [] :=
  (c7_sitemap_resolver envRec "https://example.com/docs/a"
    ⟨"https://example.com", "/docs/a"⟩ rfl).2 (fun c hc => rfl)

/-- C8 — per-page fetch failures are recovered locally: as long as URL
parsing itself succeeds, `scrape` returns a result (never propagates the
per-page error), and when every page fetch fails the result has no pages
and `pageCount = 0`. -/
theorem c8_fetch_failure_recovery (env : Env) (cfg : Config) (fuel : Nat)
    (u : String) (hp : ∀ v, (env.parseUrl v).isSome = true)
    (hf : ∀ v, env.fetchPage v = none) :
    (scrape env cfg fuel u).isSome = true ∧
    ((scrape env cfg fuel u).getD default).pages = [] ∧
    ((scrape env cfg fuel u).getD default).pageCount = 0 := by
  obtain ⟨r, hr, h1, h2⟩ := scrape_allFail_exists env cfg fuel u hp hf
  rw [hr]
  exact ⟨rfl, h1, h2⟩

theorem c8_fetch_failure_recovery_witness :
    (scrape envAllFail cfgDefault 5 "https://e.com/x").isSome = true ∧
    ((scrape envAllFail cfgDefault 5 "https://e.com/x").getD
        default).pages = [] ∧
    ((scrape envAllFail cfgDefault 5 "https://e.com/x").getD
        default).pageCount = 0 :=
  c8_fetch_failure_recovery envAllFail cfgDefault 5 "https://e.com/x"
    (fun v => rfl) (fun v => rfl)

/-- C9 counterexample — a page whose selected region converts to the empty
Markdown string is stored with `wordCount = 1` (JS `"".split(/\s+/)` is
`[""]`), while its whitespace-delimited token count is `0`: `wordCount` is
not the token count on this input. -/
theorem c9_wordCount_counterexample :
    (resEmpty.pages.getD 0 default).content = "" ∧
    (resEmpty.pages.getD 0 default).wordCount = 1 ∧
    countTokens (resEmpty.pages.getD 0 default).content = 0 ∧
    (resEmpty.pages.getD 0 default).wordCount ≠
      countTokens (resEmpty.pages.getD 0 default).content :=
  ⟨rfl, rfl, rfl, by decide⟩

/-- C9 (amended) — every collected page's `wordCount` is the length of the
JS `split(/\s+/)` of its content; that equals the whitespace-delimited
token count whenever the content is nonempty and neither starts nor ends
with whitespace (empty content yields 1, and leading or trailing whitespace
each contribute one extra empty field). -/
theorem c9_wordCount_amended (env : Env) (cfg : Config) (fuel : Nat)
    (u : String) (r : ScrapeResult) (h : scrape env cfg fuel u = some r) :
    ∀ p ∈ r.pages,
      p.wordCount = (jsSplitWs p.content).length ∧
      (headOk p.content.data = true → lastOk p.content.data = true →
        p.content.data ≠ [] → p.wordCount = countTokens p.content) := by
  obtain ⟨b, bp, seed, hpages, _⟩ := scrape_shape env cfg fuel u r h
  intro p hpm
  rw [hpages] at hpm
  have hg := (crawlLoop_pagesGood env cfg b bp fuel _
    ⟨by simp, by simp, by simp⟩).2.2 p hpm
  exact ⟨hg, fun h1 h2 h3 =>
    hg.trans (jsSplitWs_length_eq_countTokens p.content h1 h2 h3)⟩

theorem c9_wordCount_amended_witness :
    (resRec.pages.getD 0 default).wordCount =
      countTokens (resRec.pages.getD 0 default).content :=
  (c9_wordCount_amended envRec cfgDefault 10 "https://example.com/docs/a"
    resRec rfl (resRec.pages.getD 0 default) (by decide)).2
    (by decide) (by decide) (by decide)

/-- C10 — the constructor defaults every falsy numeric option: explicit
zeros yield the same configuration as an empty options object (maxPages
200, timeout 5000, concurrency 5), and no options object can produce a zero
page budget or zero concurrency. -/
theorem c10_falsy_defaults :
    mkConfig { maxPages := some 0, timeout := some 0, concurrency := some 0 } =
      mkConfig {} ∧
    (mkConfig {}).maxPages = 200 ∧ (mkConfig {}).timeout = 5000 ∧
    (mkConfig {}).concurrency = 5 ∧
    ∀ o : ScrapeOptions, 0 < (mkConfig o).maxPages ∧
      0 < (mkConfig o).timeout ∧ 0 < (mkConfig o).concurrency :=
  ⟨rfl, rfl, rfl, rfl, fun o =>
    ⟨jsOrNat_pos o.maxPages 200 (by decide),
     jsOrNat_pos o.timeout 5000 (by decide),
     jsOrNat_pos o.concurrency 5 (by decide)⟩⟩

end SuperMCP
